import Mathlib

/-! gokiq: the producer-side client (`client.go`).

A shallow embedding of `client.go`: the job registry, the queue tracker, the
store connection and the enqueue path, followed by the properties of the
specification that concern them.

Conventions of the embedding.

* The client and everything it touches are threaded explicitly: a `World`
  holds the `ClientConfig` together with the trace of store commands issued so
  far and the number of reads made from the random source.
* What lies outside the repository is a parameter, collected in `Env`: the
  worker-type function, the random source, `json.Marshal`, the store behind
  `conn.Do`, and the (unspecified) order in which Go ranges over a map.
* A Go map is an association list with distinct keys (`AList`); only
  order-insensitive facts are stated about a range over it.
* A Go slice of `interface{}` is `Option (List Value)`: `none` is the nil
  slice, `some []` the empty non-nil slice.
* A call either returns or panics; both keep the world reached (`Outcome`).
-/

namespace Gokiq

/-- Go `error` values; `none : Option GoError` is the nil error. -/
abbrev GoError := String

/-- The reply half of `conn.Do`; every caller in `client.go` discards it. -/
abbrev Reply := String

/-- The identity of a Go type, `reflect.Type`, the key of `jobMap`. -/
abbrev ReflectType := String

/-- A worker instance: a value with a dynamic type, passed by value or by pointer. -/
structure Worker where
  typeName : String
  pointer : Bool
deriving DecidableEq, Repr

/-- The `interface{}` values that can be passed as job arguments. `chan`
stands for the Go values `encoding/json` rejects (channels, functions). -/
inductive Value where
  | null
  | bool (b : Bool)
  | int (n : Int)
  | str (s : String)
  | chan (id : Nat)
deriving DecidableEq, Repr

/-- The struct `JobConfig` of `client.go`, lines 118-123. -/
structure JobConfig where
  Queue : String
  MaxRetries : Int
  name : String
deriving DecidableEq, Repr

/-- The struct `Job`, with the four fields the literal in `queueJob` fills in
(`Type` is written `Type_`, the former being reserved). -/
structure Job where
  Type_ : String
  Args : Option (List Value)
  Retry : Int
  ID : String
deriving DecidableEq, Repr

/-- A `*redis.Pool` created by `redis.NewPool`: its serial number and `maxIdle`. -/
structure Pool where
  id : Nat
  maxIdle : Int
deriving DecidableEq, Repr

/-- A store command as handed to `conn.Do`: the command name and its arguments. -/
structure Command where
  name : String
  args : List String
deriving DecidableEq, Repr

/-- The struct `ClientConfig` of `client.go`, lines 16-24. `redisPool = none`
is the nil pointer. -/
structure ClientConfig where
  RedisServer : String
  RedisNamespace : String
  RedisMaxIdle : Int
  redisPool : Option Pool
  jobMapping : AList (fun _ : ReflectType => JobConfig)
  knownQueues : AList (fun _ : String => Bool)

/-- The client together with the observable history around it. -/
structure World where
  client : ClientConfig
  /-- Store commands issued so far, oldest first. -/
  issued : List Command
  /-- Number of reads made from the random source. -/
  reads : Nat
  /-- Number of pools created so far. -/
  pools : Nat
  /-- Serial numbers of the pools closed so far. -/
  closed : List Nat

/-- One `rand.Read(b)`: the bytes the source delivered and the error it reported. -/
structure RandRead where
  data : List (Fin 256)
  err : Option GoError
deriving DecidableEq, Repr

/-- Everything `client.go` calls but does not define. -/
structure Env where
  /-- The function `workerType`, defined elsewhere in the package. -/
  workerType : Worker → ReflectType
  /-- The outcome of the n-th read of `crypto/rand`. -/
  randRead : Nat → RandRead
  /-- The function `json.Marshal` on a `*Job`. -/
  marshal : Job → Except GoError String
  /-- The store: `conn.Do` of a command, given the commands issued before it. -/
  connDo : List Command → Command → Reply × Option GoError
  /-- The order in which a `range` visits the keys of a map: some permutation. -/
  rangeKeys : (keys : List String) → {l : List String // l.Perm keys}

/-- The two ways a call of `client.go` can panic. -/
inductive Panic where
  /-- The explicit panic of `QueueJob`, line 60. -/
  | unregisteredWorker (worker : Worker)
  /-- The nil pointer dereference of `c.redisPool.Get()` on a nil pool, line 100. -/
  | nilPool
deriving DecidableEq, Repr

/-- The result of a call: it returned a value, or it panicked. -/
inductive Outcome (α : Type) where
  | returned (w : World) (a : α)
  | panicked (w : World) (p : Panic)

/-- The world a call leaves behind, however it ended. -/
def Outcome.world {α : Type} : Outcome α → World
  | .returned w _ => w
  | .panicked w _ => w

/-- The value a call returned, if it returned. -/
def Outcome.value {α : Type} : Outcome α → Option α
  | .returned _ a => some a
  | .panicked _ _ => none

/-- The panic a call ended in, if it panicked. -/
def Outcome.panic {α : Type} : Outcome α → Option Panic
  | .returned _ _ => none
  | .panicked _ p => some p

/-- The function `NewClientConfig`, lines 26-33; `defaultRedisServer` is a
constant defined elsewhere in the package. -/
def NewClientConfig (defaultRedisServer : String) : ClientConfig where
  RedisServer := defaultRedisServer
  RedisNamespace := ""
  RedisMaxIdle := 1
  redisPool := none
  jobMapping := ∅
  knownQueues := ∅

/-- The world of a freshly created client. -/
def World.init (defaultRedisServer : String) : World where
  client := NewClientConfig defaultRedisServer
  issued := []
  reads := 0
  pools := 0
  closed := []

/-- The method `nsKey`, lines 105-110. -/
def nsKey (c : ClientConfig) (key : String) : String :=
  if c.RedisNamespace ≠ "" then c.RedisNamespace ++ ":" ++ key else key

/-- The method `redisQuery`, lines 99-103: a nil pool panics at `Get`;
otherwise the command is handed to the store and its reply and error returned. -/
def redisQuery (env : Env) (w : World) (command : String) (args : List String) :
    Outcome (Reply × Option GoError) :=
  match w.client.redisPool with
  | none => .panicked w .nilPool
  | some _ =>
    .returned { w with issued := w.issued ++ [⟨command, args⟩] }
      (env.connDo w.issued ⟨command, args⟩)

/-- The method `trackQueue`, lines 89-97. The result of the `SADD` is dropped. -/
def trackQueue (env : Env) (w : World) (queue : String) : Outcome Unit :=
  match w.client.knownQueues.lookup queue with
  | some _ => .returned w ()
  | none =>
    let w1 : World :=
      { w with client := { w.client with knownQueues := w.client.knownQueues.insert queue true } }
    match w1.client.redisPool with
    | some _ =>
      match redisQuery env w1 "SADD" [nsKey w1.client "queues", queue] with
      | .returned w2 _ => .returned w2 ()
      | .panicked w2 p => .panicked w2 p
    | none => .returned w1 ()

/-- The method `Register`, lines 35-38. -/
def Register (env : Env) (w : World) (name : String) (worker : Worker) (queue : String)
    (retries : Int) : Outcome Unit :=
  let w1 : World :=
    { w with client := { w.client with
        jobMapping := w.client.jobMapping.insert (env.workerType worker) ⟨queue, retries, name⟩ } }
  trackQueue env w1 queue

/-- The method `Connect`, lines 40-55: the previous pool, if any, is closed, a
new one is created, and one `SADD` carries the key followed by every known queue. -/
def Connect (env : Env) (w : World) : Outcome Unit :=
  let closed := match w.client.redisPool with
    | some p => w.closed ++ [p.id]
    | none => w.closed
  let w1 : World :=
    { w with
      client := { w.client with redisPool := some ⟨w.pools, w.client.RedisMaxIdle⟩ }
      pools := w.pools + 1
      closed := closed }
  let queues := nsKey w1.client "queues" :: (env.rangeKeys w1.client.knownQueues.keys).val
  match redisQuery env w1 "SADD" queues with
  | .returned w2 _ => .returned w2 ()
  | .panicked w2 p => .panicked w2 p

/-- The digits used by the verb `%x` of `fmt`. -/
def ldigits : List Char := "0123456789abcdef".toList

/-- The hexadecimal digit of a nibble. -/
def hexDigit (n : Nat) : Char := ldigits.getD n '0'

/-- The characters of `fmt.Sprintf("%x", b)` for a byte slice `b`: two per byte,
high nibble first. -/
def hexChars : List (Fin 256) → List Char
  | [] => []
  | x :: xs => hexDigit (x.val / 16) :: hexDigit (x.val % 16) :: hexChars xs

/-- The buffer `b` after `b := make([]byte, 8); rand.Read(b)`: the bytes
delivered, then the zeroes `make` put there. -/
def readBuf (r : RandRead) : List (Fin 256) :=
  (r.data ++ List.replicate 8 0).take 8

/-- The function `generateJobID`, lines 112-116, on the outcome of its read.
The error of `rand.Read` is not looked at. -/
def generateJobID (r : RandRead) : String :=
  String.mk (hexChars (readBuf r))

/-- The normalisation of lines 71-73: a nil slice becomes the empty slice. -/
def normArgs (args : Option (List Value)) : Option (List Value) :=
  match args with
  | none => some []
  | some l => some l

/-- The `Job` literal of lines 74-79, for the read the call consumes. -/
def mkJob (env : Env) (w : World) (name : String) (config : JobConfig)
    (args : Option (List Value)) : Job where
  Type_ := name
  Args := normArgs args
  Retry := config.MaxRetries
  ID := generateJobID (env.randRead w.reads)

/-- The method `queueJob`, lines 70-87. -/
def queueJob (env : Env) (w : World) (name : String) (config : JobConfig)
    (args : Option (List Value)) : Outcome (Option GoError) :=
  let job := mkJob env w name config args
  let w1 : World := { w with reads := w.reads + 1 }
  match env.marshal job with
  | .error err => .returned w1 (some err)
  | .ok json =>
    match redisQuery env w1 "RPUSH" [nsKey w1.client ("queue:" ++ config.Queue), json] with
    | .returned w2 r => .returned w2 r.2
    | .panicked w2 p => .panicked w2 p

/-- The method `QueueJob`, lines 57-63. -/
def QueueJob (env : Env) (w : World) (worker : Worker) (args : Option (List Value)) :
    Outcome (Option GoError) :=
  match w.client.jobMapping.lookup (env.workerType worker) with
  | none => .panicked w (.unregisteredWorker worker)
  | some config => queueJob env w config.name config args

/-- The method `QueueJobWithConfig`, lines 65-68. -/
def QueueJobWithConfig (env : Env) (w : World) (name : String) (config : JobConfig)
    (args : Option (List Value)) : Outcome (Option GoError) :=
  match trackQueue env w config.Queue with
  | .panicked w1 p => .panicked w1 p
  | .returned w1 _ => queueJob env w1 name config args

/-- One call made on the client by its user. -/
inductive Op where
  | register (name : String) (worker : Worker) (queue : String) (retries : Int)
  | queueJob (worker : Worker) (args : Option (List Value))
  | queueJobWithConfig (name : String) (config : JobConfig) (args : Option (List Value))
  | connect

/-- The world after one call; a panic is recovered by the caller and leaves
the world as it was when the panic was raised. -/
def step (env : Env) (w : World) : Op → World
  | .register name worker queue retries => (Register env w name worker queue retries).world
  | .queueJob worker args => (QueueJob env w worker args).world
  | .queueJobWithConfig name config args => (QueueJobWithConfig env w name config args).world
  | .connect => (Connect env w).world

/-- The world after a sequence of calls, made in order. -/
def run (env : Env) (w : World) : List Op → World
  | [] => w
  | op :: ops => run env (step env w op) ops

/-- The members a `SADD` on `key` adds: its arguments after the key; nothing
for any other command. -/
def saddMembers (key : String) (cmd : Command) : List String :=
  if cmd.name = "SADD" ∧ cmd.args.head? = some key then cmd.args.tail else []

/-- The discovery set read off a trace: the members of all `SADD` commands
issued on `key`. -/
def discoverySet (key : String) : List Command → List String
  | [] => []
  | cmd :: cmds => saddMembers key cmd ++ discoverySet key cmds

/-- The key of a store command: its first argument. -/
def Command.key (cmd : Command) : Option String := cmd.args.head?

/-- The commands issued between an earlier world and a later one. -/
def issuedSince (w w1 : World) : List Command := w1.issued.drop w.issued.length

/-- What one call does to a connected client: it stays connected under the same
namespace, the trace only grows, and every queue known afterwards was known
before or is a member of a `SADD` on the discovery key issued by the call. -/
def Extends (w w1 : World) : Prop :=
  w1.client.redisPool ≠ none ∧
  w1.client.RedisNamespace = w.client.RedisNamespace ∧
  ∃ new, w1.issued = w.issued ++ new ∧
    ∀ q ∈ w1.client.knownQueues,
      q ∈ w.client.knownQueues ∨ q ∈ discoverySet (nsKey w.client "queues") new

/-! ## A concrete environment

Used to evaluate the client on closed inputs. `jsonMarshal` renders a `Job`
the way `encoding/json` does for the values of `Value`, for strings that need
no escape other than the quote and the backslash. -/

/-- Escapes the quote and the backslash. -/
def jsonEscape : List Char → List Char
  | [] => []
  | c :: cs =>
    if c = Char.ofNat 34 ∨ c = Char.ofNat 92 then Char.ofNat 92 :: c :: jsonEscape cs
    else c :: jsonEscape cs

/-- A JSON string literal. -/
def jsonString (s : String) : String :=
  "\"" ++ String.mk (jsonEscape s.toList) ++ "\""

/-- The JSON text of one argument; a channel is rejected. -/
def jsonValue : Value → Except GoError String
  | .null => .ok "null"
  | .bool b => .ok (if b then "true" else "false")
  | .int n => .ok (toString n)
  | .str s => .ok (jsonString s)
  | .chan _ => .error "json: unsupported type: chan int"

/-- The JSON texts of the arguments, or the first error. -/
def jsonValues : List Value → Except GoError (List String)
  | [] => .ok []
  | v :: vs =>
    match jsonValue v with
    | .error e => .error e
    | .ok s =>
      match jsonValues vs with
      | .error e => .error e
      | .ok ss => .ok (s :: ss)

/-- The JSON text of the field `Args`: `null` for the nil slice, an array otherwise. -/
def jsonArgs : Option (List Value) → Except GoError String
  | none => .ok "null"
  | some vs =>
    match jsonValues vs with
    | .error e => .error e
    | .ok ss => .ok ("[" ++ ",".intercalate ss ++ "]")

/-- The JSON text of a `Job`: its four fields, in declaration order. -/
def jsonMarshal (j : Job) : Except GoError String :=
  match jsonArgs j.Args with
  | .error e => .error e
  | .ok a =>
    .ok ("\x7b\"Type\":" ++ jsonString j.Type_ ++ ",\"Args\":" ++ a ++ ",\"Retry\":"
      ++ toString j.Retry ++ ",\"ID\":" ++ jsonString j.ID ++ "\x7d")

/-- A read of the random source that delivers eight bytes. -/
def goodRead : RandRead := ⟨[0x1f, 0xa0, 0x03, 0xff, 0x5c, 0x00, 0x9e, 0xb7], none⟩

/-- An environment in which everything succeeds: workers are keyed by their
type name, the store accepts every command, a range visits keys in list order. -/
def okEnv : Env where
  workerType := fun worker => worker.typeName
  randRead := fun _ => goodRead
  marshal := jsonMarshal
  connDo := fun _ _ => ("1", none)
  rangeKeys := fun keys => ⟨keys, List.Perm.refl keys⟩

/-- As `okEnv`, with a store that refuses every command. -/
def downEnv : Env := { okEnv with connDo := fun _ _ => ("", some "dial tcp: connection refused") }

/-- A worker of type `EmailSender`. -/
def emailSender : Worker := ⟨"EmailSender", false⟩

/-- A fresh client with `EmailSender` registered on queue `mailers`, then connected. -/
def mailWorld : World :=
  run okEnv (World.init "127.0.0.1:6379") [.register "EmailSender" emailSender "mailers" 3, .connect]

end Gokiq

namespace Gokiq

/-! ## The identity generator -/

theorem hexChars_length (b : List (Fin 256)) : (hexChars b).length = 2 * b.length := by
  induction b with
  | nil => rfl
  | cons x xs ih => simp only [hexChars, List.length_cons, ih]; omega

theorem hexDigit_mem (n : Nat) (h : n < 16) : hexDigit n ∈ "0123456789abcdef".toList := by
  have key : ∀ i : Fin 16, hexDigit i.val ∈ "0123456789abcdef".toList := by decide
  exact key ⟨n, h⟩

theorem hexDigit_eq_digitChar (n : Nat) (h : n < 16) : hexDigit n = Nat.digitChar n := by
  have key : ∀ i : Fin 16, hexDigit i.val = Nat.digitChar i.val := by decide
  exact key ⟨n, h⟩

theorem hexDigit_inj (m n : Nat) (hm : m < 16) (hn : n < 16) (h : hexDigit m = hexDigit n) :
    m = n := by
  have key : ∀ i j : Fin 16, hexDigit i.val = hexDigit j.val → i = j := by decide
  have := key ⟨m, hm⟩ ⟨n, hn⟩ h
  exact congrArg Fin.val this

theorem hexChars_mem (b : List (Fin 256)) : ∀ c ∈ hexChars b, c ∈ "0123456789abcdef".toList := by
  induction b with
  | nil => intro c hc; simp [hexChars] at hc
  | cons x xs ih =>
    intro c hc
    simp only [hexChars, List.mem_cons] at hc
    rcases hc with rfl | rfl | hc
    · exact hexDigit_mem _ (by have := x.isLt; omega)
    · exact hexDigit_mem _ (by omega)
    · exact ih c hc

theorem hexChars_get (b : List (Fin 256)) (i : Nat) (x : Fin 256) (h : b[i]? = some x) :
    (hexChars b)[2 * i]? = some (hexDigit (x.val / 16)) ∧
    (hexChars b)[2 * i + 1]? = some (hexDigit (x.val % 16)) := by
  induction b generalizing i with
  | nil => simp at h
  | cons y ys ih =>
    cases i with
    | zero =>
      simp only [List.getElem?_cons_zero, Option.some.injEq] at h
      subst h
      simp [hexChars]
    | succ j =>
      simp only [List.getElem?_cons_succ] at h
      have := ih j h
      have e1 : 2 * (j + 1) = (2 * j + 1) + 1 := by omega
      have e2 : 2 * (j + 1) + 1 = ((2 * j + 1) + 1) + 1 := by omega
      rw [e2, e1]
      simp only [hexChars, List.getElem?_cons_succ]
      exact this

theorem hexChars_inj (a b : List (Fin 256)) (h : hexChars a = hexChars b) : a = b := by
  induction a generalizing b with
  | nil =>
    cases b with
    | nil => rfl
    | cons y ys => simp [hexChars] at h
  | cons x xs ih =>
    cases b with
    | nil => simp [hexChars] at h
    | cons y ys =>
      simp only [hexChars, List.cons.injEq] at h
      obtain ⟨h1, h2, h3⟩ := h
      have hx := x.isLt
      have hy := y.isLt
      have d := hexDigit_inj _ _ (by omega) (by omega) h1
      have m := hexDigit_inj _ _ (by omega) (by omega) h2
      have : x = y := Fin.ext (by omega)
      rw [this, ih ys h3]

theorem readBuf_full (r : RandRead) (h : r.data.length = 8) : readBuf r = r.data := by
  unfold readBuf
  rw [List.take_append_of_le_length (by omega), List.take_of_length_le (by omega)]

/-- C8. When the random source fills the 8-byte buffer, `generateJobID` returns
the hexadecimal encoding of those bytes: 16 characters, each one of
`0123456789abcdef`, characters `2i` and `2i+1` being the digits of the high and
the low nibble of byte `i`; two filled buffers with the same identifier are equal. -/
theorem generateJobID_hex (r : RandRead) (hfull : r.data.length = 8) :
    generateJobID r = String.mk (hexChars r.data) ∧
    (generateJobID r).length = 16 ∧
    (∀ c ∈ (generateJobID r).toList, c ∈ "0123456789abcdef".toList) ∧
    (∀ (i : Nat) (x : Fin 256), r.data[i]? = some x →
      (generateJobID r).toList[2 * i]? = some (Nat.digitChar (x.val / 16)) ∧
      (generateJobID r).toList[2 * i + 1]? = some (Nat.digitChar (x.val % 16))) ∧
    (∀ r2 : RandRead, r2.data.length = 8 → generateJobID r2 = generateJobID r →
      r2.data = r.data) := by
  have hid : generateJobID r = String.mk (hexChars r.data) := by
    unfold generateJobID; rw [readBuf_full r hfull]
  refine ⟨hid, ?_, ?_, ?_, ?_⟩
  · rw [hid]
    show (hexChars r.data).length = 16
    rw [hexChars_length, hfull]
  · rw [hid]
    exact hexChars_mem r.data
  · intro i x hx
    rw [hid]
    have hlt := x.isLt
    rw [← hexDigit_eq_digitChar _ (by omega), ← hexDigit_eq_digitChar _ (by omega)]
    exact hexChars_get r.data i x hx
  · intro r2 h2 heq
    have hid2 : generateJobID r2 = String.mk (hexChars r2.data) := by
      unfold generateJobID; rw [readBuf_full r2 h2]
    rw [hid, hid2] at heq
    exact hexChars_inj _ _ (congrArg String.data heq)

theorem generateJobID_hex_witness :
    goodRead.data.length = 8 ∧ generateJobID goodRead = "1fa003ff5c009eb7" :=
  ⟨by decide, (generateJobID_hex goodRead (by decide)).1.trans (by decide)⟩

/-! ## The store connection and the queue tracker -/

theorem redisQuery_connected (env : Env) (w : World) (command : String) (args : List String)
    (pool : Pool) (h : w.client.redisPool = some pool) :
    redisQuery env w command args =
      .returned { w with issued := w.issued ++ [⟨command, args⟩] }
        (env.connDo w.issued ⟨command, args⟩) := by
  unfold redisQuery; rw [h]

theorem redisQuery_nil (env : Env) (w : World) (command : String) (args : List String)
    (h : w.client.redisPool = none) :
    redisQuery env w command args = .panicked w .nilPool := by
  unfold redisQuery; rw [h]

theorem trackQueue_known (env : Env) (w : World) (q : String)
    (h : q ∈ w.client.knownQueues) : trackQueue env w q = .returned w () := by
  unfold trackQueue
  cases hl : w.client.knownQueues.lookup q with
  | none => exact absurd h (AList.lookup_eq_none.mp hl)
  | some b => rfl

theorem trackQueue_new_unconnected (env : Env) (w : World) (q : String)
    (h : q ∉ w.client.knownQueues) (hp : w.client.redisPool = none) :
    trackQueue env w q = .returned
      { w with client := { w.client with knownQueues := w.client.knownQueues.insert q true } }
      () := by
  unfold trackQueue
  rw [AList.lookup_eq_none.mpr h]
  simp only [hp]

theorem trackQueue_new_connected (env : Env) (w : World) (q : String) (pool : Pool)
    (h : q ∉ w.client.knownQueues) (hp : w.client.redisPool = some pool) :
    trackQueue env w q = .returned
      { w with
        client := { w.client with knownQueues := w.client.knownQueues.insert q true }
        issued := w.issued ++ [⟨"SADD", [nsKey w.client "queues", q]⟩] }
      () := by
  unfold trackQueue
  rw [AList.lookup_eq_none.mpr h]
  simp only [hp, redisQuery]
  rfl

theorem queueJob_marshal_error (env : Env) (w : World) (name : String) (config : JobConfig)
    (args : Option (List Value)) (e : GoError)
    (h : env.marshal (mkJob env w name config args) = .error e) :
    queueJob env w name config args = .returned { w with reads := w.reads + 1 } (some e) := by
  unfold queueJob; simp only [h]

theorem queueJob_connected (env : Env) (w : World) (name : String) (config : JobConfig)
    (args : Option (List Value)) (pool : Pool) (payload : String)
    (hp : w.client.redisPool = some pool)
    (h : env.marshal (mkJob env w name config args) = .ok payload) :
    queueJob env w name config args = .returned
      { w with
        issued := w.issued ++ [⟨"RPUSH", [nsKey w.client ("queue:" ++ config.Queue), payload]⟩]
        reads := w.reads + 1 }
      (env.connDo w.issued ⟨"RPUSH", [nsKey w.client ("queue:" ++ config.Queue), payload]⟩).2 := by
  unfold queueJob; simp only [h, redisQuery, hp]

theorem queueJob_unconnected (env : Env) (w : World) (name : String) (config : JobConfig)
    (args : Option (List Value)) (payload : String)
    (hp : w.client.redisPool = none)
    (h : env.marshal (mkJob env w name config args) = .ok payload) :
    queueJob env w name config args = .panicked { w with reads := w.reads + 1 } .nilPool := by
  unfold queueJob; simp only [h, redisQuery, hp]

/-- The queue tracker always returns, and touches nothing but the known
queues and the trace. -/
theorem trackQueue_returns (env : Env) (w : World) (q : String) :
    ∃ w1, trackQueue env w q = .returned w1 () ∧
      w1.client.jobMapping = w.client.jobMapping ∧
      w1.client.redisPool = w.client.redisPool ∧
      w1.client.RedisNamespace = w.client.RedisNamespace ∧
      w1.reads = w.reads := by
  by_cases h : q ∈ w.client.knownQueues
  · exact ⟨w, trackQueue_known env w q h, rfl, rfl, rfl, rfl⟩
  · cases hp : w.client.redisPool with
    | none => exact ⟨_, trackQueue_new_unconnected env w q h hp, rfl, hp, rfl, rfl⟩
    | some pool => exact ⟨_, trackQueue_new_connected env w q pool h hp, rfl, hp, rfl, rfl⟩

/-! ## Enqueueing -/

/-- C1. `Register(n, W, q, r)` leaves the registry mapping the type of `W` to
`(q, r, n)`; and in a connected client whose registry maps the type of `W` to
`(q, r, n)`, when the job record serialises, `QueueJob(W, args...)` returns
having issued exactly one command, `RPUSH nsKey("queue:" + q) payload`, the
payload being the serialisation of the record with `Type = n`, `Retry = r`,
the identifier of `generateJobID`, and `Args` the arguments supplied, the empty
list (not nil) when none were. -/
theorem QueueJob_registered_publishes (env : Env) (w0 w : World) (worker : Worker)
    (n q : String) (r : Int) (args : Option (List Value)) (pool : Pool) (payload : String)
    (hreg : w.client.jobMapping.lookup (env.workerType worker) = some ⟨q, r, n⟩)
    (hconn : w.client.redisPool = some pool)
    (hser : env.marshal
      ⟨n, some (args.getD []), r, generateJobID (env.randRead w.reads)⟩ = .ok payload) :
    (Register env w0 n worker q r).world.client.jobMapping.lookup (env.workerType worker)
      = some ⟨q, r, n⟩ ∧
    QueueJob env w worker args = .returned
      { w with
        issued := w.issued ++ [⟨"RPUSH", [nsKey w.client ("queue:" ++ q), payload]⟩]
        reads := w.reads + 1 }
      (env.connDo w.issued ⟨"RPUSH", [nsKey w.client ("queue:" ++ q), payload]⟩).2 := by
  constructor
  · obtain ⟨w1, h1, hj, -⟩ := trackQueue_returns env
      { w0 with client := { w0.client with
          jobMapping := w0.client.jobMapping.insert (env.workerType worker) ⟨q, r, n⟩ } } q
    unfold Register
    rw [h1]
    show w1.client.jobMapping.lookup (env.workerType worker) = some ⟨q, r, n⟩
    rw [hj]
    exact AList.lookup_insert _
  · have hjob : mkJob env w n ⟨q, r, n⟩ args
        = ⟨n, some (args.getD []), r, generateJobID (env.randRead w.reads)⟩ := by
      cases args <;> rfl
    unfold QueueJob
    rw [hreg]
    exact queueJob_connected env w n ⟨q, r, n⟩ args pool payload hconn (hjob ▸ hser)

theorem QueueJob_registered_publishes_witness :
    (QueueJob okEnv mailWorld emailSender (some [.str "user@example.com", .str "welcome"])).value
        = some none ∧
    (QueueJob okEnv mailWorld emailSender none).world.issued =
      [⟨"SADD", ["queues", "mailers"]⟩, ⟨"RPUSH", ["queue:mailers",
        "\x7b\"Type\":\"EmailSender\",\"Args\":[],\"Retry\":3,\"ID\":\"1fa003ff5c009eb7\"\x7d"]⟩] := by
  have h := (QueueJob_registered_publishes okEnv (World.init "127.0.0.1:6379") mailWorld
    emailSender "EmailSender" "mailers" 3 none ⟨0, 1⟩
    "\x7b\"Type\":\"EmailSender\",\"Args\":[],\"Retry\":3,\"ID\":\"1fa003ff5c009eb7\"\x7d"
    (by decide) (by decide) rfl).2
  refine ⟨by decide, ?_⟩
  rw [h]
  decide

/-- C2. When the registry has no entry for the worker's type, `QueueJob` panics
in the world it was called in: it returns nothing (so not nil), issues no store
command, and leaves the registry and the known queues as they were. -/
theorem QueueJob_unregistered_panics (env : Env) (w : World) (worker : Worker)
    (args : Option (List Value))
    (h : w.client.jobMapping.lookup (env.workerType worker) = none) :
    QueueJob env w worker args = .panicked w (.unregisteredWorker worker) ∧
    (QueueJob env w worker args).value = none ∧
    (QueueJob env w worker args).world.issued = w.issued ∧
    (QueueJob env w worker args).world.client.jobMapping = w.client.jobMapping ∧
    (QueueJob env w worker args).world.client.knownQueues = w.client.knownQueues := by
  have key : QueueJob env w worker args = .panicked w (.unregisteredWorker worker) := by
    unfold QueueJob; rw [h]
  rw [key]
  exact ⟨rfl, rfl, rfl, rfl, rfl⟩

theorem QueueJob_unregistered_panics_witness :
    mailWorld.client.jobMapping.lookup (okEnv.workerType ⟨"Reaper", true⟩) = none ∧
    (QueueJob okEnv mailWorld ⟨"Reaper", true⟩ none).panic
      = some (.unregisteredWorker ⟨"Reaper", true⟩) :=
  ⟨by decide,
    congrArg Outcome.panic (QueueJob_unregistered_panics okEnv mailWorld ⟨"Reaper", true⟩ none
      (by decide)).1⟩

/-- C3, the counterexample. In a client that was never connected `queueJob`
serialises the record, issues no `RPUSH` (so none fails), and then panics on
the nil pool: it returns neither an error nor nil. -/
theorem queueJob_unconnected_counterexample :
    okEnv.marshal (mkJob okEnv (World.init "127.0.0.1:6379") "EmailSender"
        ⟨"mailers", 3, "EmailSender"⟩ none)
      = .ok "\x7b\"Type\":\"EmailSender\",\"Args\":[],\"Retry\":3,\"ID\":\"1fa003ff5c009eb7\"\x7d" ∧
    (queueJob okEnv (World.init "127.0.0.1:6379") "EmailSender"
        ⟨"mailers", 3, "EmailSender"⟩ none).world.issued = [] ∧
    (queueJob okEnv (World.init "127.0.0.1:6379") "EmailSender"
        ⟨"mailers", 3, "EmailSender"⟩ none).value ≠ some none ∧
    (queueJob okEnv (World.init "127.0.0.1:6379") "EmailSender"
        ⟨"mailers", 3, "EmailSender"⟩ none).panic = some .nilPool := by
  refine ⟨rfl, by decide, by decide, by decide⟩

/-- C3, amended. In a connected client `queueJob` always returns. When
serialising the record fails it returns the serialisation error and issues no
command; when serialising succeeds it issues exactly one `RPUSH` and returns
whatever error the store reported for it, nil if none. So it returns a non-nil
error exactly when serialising fails or the `RPUSH` fails. `QueueJob` on a
registered worker and `QueueJobWithConfig` return what `queueJob` returns. -/
theorem queueJob_error_iff (env : Env) (w : World) (name : String) (config : JobConfig)
    (args : Option (List Value)) (worker : Worker) (pool : Pool)
    (hconn : w.client.redisPool = some pool) :
    (∀ e, env.marshal (mkJob env w name config args) = .error e →
      queueJob env w name config args = .returned { w with reads := w.reads + 1 } (some e)) ∧
    (∀ payload, env.marshal (mkJob env w name config args) = .ok payload →
      queueJob env w name config args = .returned
        { w with
          issued := w.issued ++
            [⟨"RPUSH", [nsKey w.client ("queue:" ++ config.Queue), payload]⟩]
          reads := w.reads + 1 }
        (env.connDo w.issued
          ⟨"RPUSH", [nsKey w.client ("queue:" ++ config.Queue), payload]⟩).2) ∧
    ((∃ e, (queueJob env w name config args).value = some (some e)) ↔
      ((∃ e, env.marshal (mkJob env w name config args) = .error e) ∨
        ∃ payload e, env.marshal (mkJob env w name config args) = .ok payload ∧
          (env.connDo w.issued
            ⟨"RPUSH", [nsKey w.client ("queue:" ++ config.Queue), payload]⟩).2 = some e)) ∧
    ((queueJob env w name config args).value = some none ∨
      ∃ e, (queueJob env w name config args).value = some (some e)) ∧
    (∀ cfg, w.client.jobMapping.lookup (env.workerType worker) = some cfg →
      QueueJob env w worker args = queueJob env w cfg.name cfg args) ∧
    QueueJobWithConfig env w name config args
      = queueJob env (trackQueue env w config.Queue).world name config args := by
  have herr := queueJob_marshal_error env w name config args
  have hok := fun payload => queueJob_connected env w name config args pool payload hconn
  refine ⟨herr, hok, ?_, ?_, ?_, ?_⟩
  · cases hm : env.marshal (mkJob env w name config args) with
    | error e =>
      rw [herr e hm]
      constructor
      · intro _; exact Or.inl ⟨e, rfl⟩
      · intro _; exact ⟨e, rfl⟩
    | ok payload =>
      rw [hok payload hm]
      constructor
      · rintro ⟨e, he⟩
        refine Or.inr ⟨payload, e, rfl, ?_⟩
        simpa [Outcome.value] using he
      · rintro (⟨e, he⟩ | ⟨p, e, hp, he⟩)
        · cases he
        · cases hp
          exact ⟨e, by simp [Outcome.value, he]⟩
  · cases hm : env.marshal (mkJob env w name config args) with
    | error e => rw [herr e hm]; exact Or.inr ⟨e, rfl⟩
    | ok payload =>
      rw [hok payload hm]
      cases hd : (env.connDo w.issued
          ⟨"RPUSH", [nsKey w.client ("queue:" ++ config.Queue), payload]⟩).2 with
      | none => exact Or.inl rfl
      | some e => exact Or.inr ⟨e, rfl⟩
  · intro cfg hcfg
    unfold QueueJob; rw [hcfg]
  · obtain ⟨w1, h1, -⟩ := trackQueue_returns env w config.Queue
    unfold QueueJobWithConfig
    rw [h1]
    rfl

theorem queueJob_error_iff_witness :
    (queueJob downEnv mailWorld "EmailSender" ⟨"mailers", 3, "EmailSender"⟩ none).value
      = some (some "dial tcp: connection refused") ∧
    (queueJob downEnv mailWorld "EmailSender" ⟨"mailers", 3, "EmailSender"⟩ none).world.issued
      = [⟨"SADD", ["queues", "mailers"]⟩, ⟨"RPUSH", ["queue:mailers",
        "\x7b\"Type\":\"EmailSender\",\"Args\":[],\"Retry\":3,\"ID\":\"1fa003ff5c009eb7\"\x7d"]⟩] := by
  have h := (queueJob_error_iff downEnv mailWorld "EmailSender" ⟨"mailers", 3, "EmailSender"⟩
    none emailSender ⟨0, 1⟩ (by decide)).2.1
    "\x7b\"Type\":\"EmailSender\",\"Args\":[],\"Retry\":3,\"ID\":\"1fa003ff5c009eb7\"\x7d" rfl
  rw [h]
  exact ⟨by decide, by decide⟩

/-- C4, the counterexample. A connected client is handed a channel as
argument: `QueueJobWithConfig` tracks the queue and returns the serialisation
error, and no `RPUSH` is issued. -/
theorem QueueJobWithConfig_unserialisable_counterexample :
    mailWorld.client.redisPool = some ⟨0, 1⟩ ∧
    (QueueJobWithConfig okEnv mailWorld "Report" ⟨"reports", 5, ""⟩ (some [.chan 1])).value
      = some (some "json: unsupported type: chan int") ∧
    (QueueJobWithConfig okEnv mailWorld "Report" ⟨"reports", 5, ""⟩ (some [.chan 1])).world.issued
      = [⟨"SADD", ["queues", "mailers"]⟩, ⟨"SADD", ["queues", "reports"]⟩] := by
  refine ⟨by decide, by decide, by decide⟩

theorem Outcome.world_returned {α : Type} (w : World) (a : α) :
    (Outcome.returned w a).world = w := rfl

theorem Outcome.world_panicked {α : Type} (w : World) (p : Panic) :
    (Outcome.panicked w p : Outcome α).world = w := rfl

theorem mkJob_reads (env : Env) (w w1 : World) (name : String) (config : JobConfig)
    (args : Option (List Value)) (h : w1.reads = w.reads) :
    mkJob env w1 name config args = mkJob env w name config args := by
  unfold mkJob; rw [h]

/-- The client is the same after `queueJob` as before, however it ends. -/
theorem queueJob_client (env : Env) (w : World) (name : String) (config : JobConfig)
    (args : Option (List Value)) :
    (queueJob env w name config args).world.client = w.client := by
  cases hm : env.marshal (mkJob env w name config args) with
  | error e => rw [queueJob_marshal_error env w name config args e hm]; rfl
  | ok payload =>
    cases hp : w.client.redisPool with
    | none => rw [queueJob_unconnected env w name config args payload hp hm]; rfl
    | some pool => rw [queueJob_connected env w name config args pool payload hp hm]; rfl

/-- The commands `queueJob` issues: none, or one `RPUSH` of the serialised record. -/
theorem queueJob_issued (env : Env) (w : World) (name : String) (config : JobConfig)
    (args : Option (List Value)) :
    (queueJob env w name config args).world.issued = w.issued ∨
    ∃ payload, env.marshal (mkJob env w name config args) = .ok payload ∧
      (queueJob env w name config args).world.issued = w.issued ++
        [⟨"RPUSH", [nsKey w.client ("queue:" ++ config.Queue), payload]⟩] := by
  cases hm : env.marshal (mkJob env w name config args) with
  | error e => rw [queueJob_marshal_error env w name config args e hm]; exact Or.inl rfl
  | ok payload =>
    cases hp : w.client.redisPool with
    | none => rw [queueJob_unconnected env w name config args payload hp hm]; exact Or.inl rfl
    | some pool =>
      rw [queueJob_connected env w name config args pool payload hp hm]
      exact Or.inr ⟨payload, rfl, rfl⟩

/-- The commands `trackQueue` issues: none, or one `SADD` of the queue. -/
theorem trackQueue_issued (env : Env) (w : World) (q : String) :
    (trackQueue env w q).world.issued = w.issued ∨
    (trackQueue env w q).world.issued = w.issued ++ [⟨"SADD", [nsKey w.client "queues", q]⟩] := by
  by_cases h : q ∈ w.client.knownQueues
  · rw [trackQueue_known env w q h]; exact Or.inl rfl
  · cases hp : w.client.redisPool with
    | none => rw [trackQueue_new_unconnected env w q h hp]; exact Or.inl rfl
    | some pool => rw [trackQueue_new_connected env w q pool h hp]; exact Or.inr rfl

/-- The queue is known once `trackQueue` is done. -/
theorem trackQueue_mem (env : Env) (w : World) (q : String) :
    q ∈ (trackQueue env w q).world.client.knownQueues := by
  by_cases h : q ∈ w.client.knownQueues
  · rw [trackQueue_known env w q h]; exact h
  · cases hp : w.client.redisPool with
    | none =>
      rw [trackQueue_new_unconnected env w q h hp]
      exact (AList.mem_insert _).mpr (Or.inl rfl)
    | some pool =>
      rw [trackQueue_new_connected env w q pool h hp]
      exact (AList.mem_insert _).mpr (Or.inl rfl)

/-- `Connect` always returns, with a fresh pool in place and one `SADD` issued. -/
theorem Connect_eq (env : Env) (w : World) :
    Connect env w = .returned
      { w with
        client := { w.client with redisPool := some ⟨w.pools, w.client.RedisMaxIdle⟩ }
        issued := w.issued ++
          [⟨"SADD", nsKey w.client "queues" :: (env.rangeKeys w.client.knownQueues.keys).val⟩]
        pools := w.pools + 1
        closed := match w.client.redisPool with
          | some p => w.closed ++ [p.id]
          | none => w.closed }
      () := by
  unfold Connect redisQuery
  rfl

theorem issuedSince_self (w w1 : World) (h : w1.issued = w.issued) : issuedSince w w1 = [] := by
  unfold issuedSince; rw [h]; exact List.drop_length _

theorem issuedSince_append (w w1 : World) (new : List Command)
    (h : w1.issued = w.issued ++ new) : issuedSince w w1 = new := by
  unfold issuedSince; rw [h]; exact List.drop_left _ _

/-- C4, amended. In a connected client `QueueJobWithConfig(name, config, args...)`
leaves `config.Queue` among the known queues, registered or not; and when the
job record serialises, the commands it issues are the `SADD` of the queue if the
queue was not known before, followed by one `RPUSH` on
`nsKey("queue:" + config.Queue)` of the serialised record whose `Type` is `name`
and whose `Retry` is `config.MaxRetries`. -/
theorem QueueJobWithConfig_tracks_and_publishes (env : Env) (w : World) (name : String)
    (config : JobConfig) (args : Option (List Value)) (pool : Pool)
    (hconn : w.client.redisPool = some pool) :
    config.Queue ∈ (QueueJobWithConfig env w name config args).world.client.knownQueues ∧
    (∀ payload,
      env.marshal ⟨name, normArgs args, config.MaxRetries,
        generateJobID (env.randRead w.reads)⟩ = .ok payload →
      ∃ pre,
        ((config.Queue ∈ w.client.knownQueues ∧ pre = []) ∨
          (config.Queue ∉ w.client.knownQueues ∧
            pre = [⟨"SADD", [nsKey w.client "queues", config.Queue]⟩])) ∧
        (QueueJobWithConfig env w name config args).world.issued = w.issued ++ pre ++
          [⟨"RPUSH", [nsKey w.client ("queue:" ++ config.Queue), payload]⟩]) := by
  have hq : QueueJobWithConfig env w name config args
      = queueJob env (trackQueue env w config.Queue).world name config args := by
    obtain ⟨w1, h1, -⟩ := trackQueue_returns env w config.Queue
    unfold QueueJobWithConfig; rw [h1]; rfl
  constructor
  · rw [hq, queueJob_client]
    exact trackQueue_mem env w config.Queue
  · intro payload hser
    rw [hq]
    by_cases h : config.Queue ∈ w.client.knownQueues
    · refine ⟨[], Or.inl ⟨h, rfl⟩, ?_⟩
      rw [trackQueue_known env w config.Queue h]
      show (queueJob env w name config args).world.issued = _
      rw [queueJob_connected env w name config args pool payload hconn hser]
      simp [Outcome.world]
    · refine ⟨_, Or.inr ⟨h, rfl⟩, ?_⟩
      have key := queueJob_connected env
        { w with
          client := { w.client with knownQueues := w.client.knownQueues.insert config.Queue true }
          issued := w.issued ++ [⟨"SADD", [nsKey w.client "queues", config.Queue]⟩] }
        name config args pool payload hconn hser
      rw [trackQueue_new_connected env w config.Queue pool h hconn, Outcome.world_returned, key]
      rfl

theorem QueueJobWithConfig_tracks_and_publishes_witness :
    "reports" ∈ (QueueJobWithConfig okEnv mailWorld "Report" ⟨"reports", 5, ""⟩
      (some [.int 7])).world.client.knownQueues ∧
    (QueueJobWithConfig okEnv mailWorld "Report" ⟨"reports", 5, ""⟩ (some [.int 7])).world.issued
      = [⟨"SADD", ["queues", "mailers"]⟩, ⟨"SADD", ["queues", "reports"]⟩,
        ⟨"RPUSH", ["queue:reports",
          "\x7b\"Type\":\"Report\",\"Args\":[7],\"Retry\":5,\"ID\":\"1fa003ff5c009eb7\"\x7d"]⟩] :=
  ⟨(QueueJobWithConfig_tracks_and_publishes okEnv mailWorld "Report" ⟨"reports", 5, ""⟩
      (some [.int 7]) ⟨0, 1⟩ (by decide)).1, by decide⟩

/-! ## Namespacing -/

theorem Connect_issuedSince (env : Env) (w : World) :
    issuedSince w (Connect env w).world =
      [⟨"SADD", nsKey w.client "queues" :: (env.rangeKeys w.client.knownQueues.keys).val⟩] := by
  rw [Connect_eq]
  exact issuedSince_append _ _ _ rfl

theorem trackQueue_issuedSince (env : Env) (w : World) (q : String) :
    issuedSince w (trackQueue env w q).world = [] ∨
    issuedSince w (trackQueue env w q).world = [⟨"SADD", [nsKey w.client "queues", q]⟩] := by
  rcases trackQueue_issued env w q with h | h
  · exact Or.inl (issuedSince_self _ _ h)
  · exact Or.inr (issuedSince_append _ _ _ h)

theorem queueJob_issuedSince (env : Env) (w : World) (name : String) (config : JobConfig)
    (args : Option (List Value)) :
    issuedSince w (queueJob env w name config args).world = [] ∨
    ∃ payload, env.marshal (mkJob env w name config args) = .ok payload ∧
      issuedSince w (queueJob env w name config args).world =
        [⟨"RPUSH", [nsKey w.client ("queue:" ++ config.Queue), payload]⟩] := by
  rcases queueJob_issued env w name config args with h | ⟨payload, hm, h⟩
  · exact Or.inl (issuedSince_self _ _ h)
  · exact Or.inr ⟨payload, hm, issuedSince_append _ _ _ h⟩

/-- The key of every command issued by `Connect`, `trackQueue` or `queueJob`:
`nsKey("queues")` or `nsKey("queue:" + config.Queue)`. -/
theorem store_keys (env : Env) (w : World) (q name : String) (config : JobConfig)
    (args : Option (List Value)) :
    ∀ cmd ∈ issuedSince w (Connect env w).world ++ issuedSince w (trackQueue env w q).world ++
        issuedSince w (queueJob env w name config args).world,
      cmd.key = some (nsKey w.client "queues") ∨
      cmd.key = some (nsKey w.client ("queue:" ++ config.Queue)) := by
  intro cmd hcmd
  rw [List.mem_append, List.mem_append] at hcmd
  rcases hcmd with (hc | ht) | hj
  · rw [Connect_issuedSince, List.mem_singleton] at hc
    subst hc; exact Or.inl rfl
  · rcases trackQueue_issuedSince env w q with h | h
    · rw [h] at ht; cases ht
    · rw [h, List.mem_singleton] at ht
      subst ht; exact Or.inl rfl
  · rcases queueJob_issuedSince env w name config args with h | ⟨payload, -, h⟩
    · rw [h] at hj; cases hj
    · rw [h, List.mem_singleton] at hj
      subst hj; exact Or.inr rfl

/-- C5. `nsKey(k)` is the namespace, a colon and `k` when the namespace is not
empty, and `k` when it is. Every command issued by `Connect` and by `trackQueue`
has key `nsKey("queues")`, every command issued by `queueJob` has key
`nsKey("queue:" + config.Queue)`. So under namespace `ns` every key starts with
`ns:`, and without a namespace every key is `queues` or `queue:<q>`. -/
theorem nsKey_store_keys (env : Env) (w : World) (k q name : String) (config : JobConfig)
    (args : Option (List Value)) :
    (w.client.RedisNamespace ≠ "" → nsKey w.client k = w.client.RedisNamespace ++ ":" ++ k) ∧
    (w.client.RedisNamespace = "" → nsKey w.client k = k) ∧
    (∀ cmd ∈ issuedSince w (Connect env w).world, cmd.key = some (nsKey w.client "queues")) ∧
    (∀ cmd ∈ issuedSince w (trackQueue env w q).world,
      cmd.key = some (nsKey w.client "queues")) ∧
    (∀ cmd ∈ issuedSince w (queueJob env w name config args).world,
      cmd.key = some (nsKey w.client ("queue:" ++ config.Queue))) ∧
    (w.client.RedisNamespace = "ns" →
      ∀ cmd ∈ issuedSince w (Connect env w).world ++ issuedSince w (trackQueue env w q).world ++
          issuedSince w (queueJob env w name config args).world,
        cmd.key = some ("ns:" ++ "queues") ∨
        cmd.key = some ("ns:" ++ ("queue:" ++ config.Queue))) ∧
    (w.client.RedisNamespace = "" →
      ∀ cmd ∈ issuedSince w (Connect env w).world ++ issuedSince w (trackQueue env w q).world ++
          issuedSince w (queueJob env w name config args).world,
        cmd.key = some "queues" ∨ cmd.key = some ("queue:" ++ config.Queue)) := by
  have hne : ∀ key, w.client.RedisNamespace ≠ "" →
      nsKey w.client key = w.client.RedisNamespace ++ ":" ++ key := by
    intro key h; unfold nsKey; rw [if_pos h]
  have he : ∀ key, w.client.RedisNamespace = "" → nsKey w.client key = key := by
    intro key h; unfold nsKey; rw [if_neg (not_not.mpr h)]
  have hns : ∀ key, w.client.RedisNamespace = "ns" → nsKey w.client key = "ns:" ++ key := by
    intro key h
    rw [hne key (by rw [h]; decide), h]
    exact congrArg (fun p => p ++ key) (by decide : "ns" ++ ":" = "ns:")
  have hall := store_keys env w q name config args
  refine ⟨hne k, he k, ?_, ?_, ?_, ?_, ?_⟩
  · intro cmd hc
    rw [Connect_issuedSince, List.mem_singleton] at hc
    subst hc; rfl
  · intro cmd ht
    rcases trackQueue_issuedSince env w q with h | h
    · rw [h] at ht; cases ht
    · rw [h, List.mem_singleton] at ht
      subst ht; rfl
  · intro cmd hj
    rcases queueJob_issuedSince env w name config args with h | ⟨payload, -, h⟩
    · rw [h] at hj; cases hj
    · rw [h, List.mem_singleton] at hj
      subst hj; rfl
  · intro h cmd hc
    have := hall cmd hc
    rwa [hns _ h, hns _ h] at this
  · intro h cmd hc
    have := hall cmd hc
    rwa [he _ h, he _ h] at this

theorem nsKey_store_keys_witness :
    (∀ cmd ∈ issuedSince mailWorld
        (queueJob okEnv mailWorld "EmailSender" ⟨"mailers", 3, "EmailSender"⟩ none).world,
      cmd.key = some "queue:mailers") ∧
    issuedSince mailWorld
        (queueJob okEnv mailWorld "EmailSender" ⟨"mailers", 3, "EmailSender"⟩ none).world ≠ [] :=
  ⟨(nsKey_store_keys okEnv mailWorld "k" "mailers" "EmailSender" ⟨"mailers", 3, "EmailSender"⟩
      none).2.2.2.2.1, by decide⟩

/-! ## Idempotence of tracking -/

/-- C7. Tracking a queue that is already known, through `trackQueue`, `Register`
or `QueueJobWithConfig`, leaves the known queues as they were and issues no
`SADD`; a second `trackQueue` of the same queue changes neither the known queues
nor the trace, and the queue is held exactly once. A first track issues nothing
when the pool is nil and exactly one `SADD nsKey("queues") q` when it is not. -/
theorem trackQueue_idempotent (env : Env) (w : World) (q : String) :
    (q ∈ w.client.knownQueues →
      trackQueue env w q = .returned w () ∧
      (∀ n worker r,
        (Register env w n worker q r).world.client.knownQueues = w.client.knownQueues ∧
        (Register env w n worker q r).world.issued = w.issued) ∧
      (∀ n config args, config.Queue = q →
        (QueueJobWithConfig env w n config args).world.client.knownQueues
          = w.client.knownQueues ∧
        ∀ cmd ∈ issuedSince w (QueueJobWithConfig env w n config args).world,
          cmd.name = "RPUSH")) ∧
    (trackQueue env (trackQueue env w q).world q).world.client.knownQueues
      = (trackQueue env w q).world.client.knownQueues ∧
    (trackQueue env (trackQueue env w q).world q).world.issued
      = (trackQueue env w q).world.issued ∧
    (trackQueue env w q).world.client.knownQueues.keys.count q = 1 ∧
    (q ∉ w.client.knownQueues → w.client.redisPool = none →
      (trackQueue env w q).world.issued = w.issued ∧
      (trackQueue env w q).world.client.knownQueues = w.client.knownQueues.insert q true) ∧
    (q ∉ w.client.knownQueues → w.client.redisPool ≠ none →
      (trackQueue env w q).world.issued = w.issued ++ [⟨"SADD", [nsKey w.client "queues", q]⟩] ∧
      (trackQueue env w q).world.client.knownQueues = w.client.knownQueues.insert q true) := by
  have hmem := trackQueue_mem env w q
  have htwice := trackQueue_known env (trackQueue env w q).world q hmem
  refine ⟨?_, ?_, ?_, ?_, ?_, ?_⟩
  · intro hq
    refine ⟨trackQueue_known env w q hq, ?_, ?_⟩
    · intro n worker r
      have : Register env w n worker q r = .returned
          { w with client := { w.client with
              jobMapping := w.client.jobMapping.insert (env.workerType worker) ⟨q, r, n⟩ } }
          () := trackQueue_known env _ q hq
      rw [this]
      exact ⟨rfl, rfl⟩
    · intro n config args hcq
      subst hcq
      have hk : QueueJobWithConfig env w n config args = queueJob env w n config args := by
        unfold QueueJobWithConfig; rw [trackQueue_known env w config.Queue hq]
      rw [hk, queueJob_client]
      refine ⟨rfl, ?_⟩
      intro cmd hcmd
      rcases queueJob_issuedSince env w n config args with h | ⟨payload, -, h⟩
      · rw [h] at hcmd; cases hcmd
      · rw [h, List.mem_singleton] at hcmd
        subst hcmd; rfl
  · rw [htwice]; rfl
  · rw [htwice]; rfl
  · exact List.count_eq_one_of_mem (AList.keys_nodup _) (AList.mem_keys.mp hmem)
  · intro hq hp
    rw [trackQueue_new_unconnected env w q hq hp]
    exact ⟨rfl, rfl⟩
  · intro hq hp
    obtain ⟨pool, hpool⟩ := Option.ne_none_iff_exists'.mp hp
    rw [trackQueue_new_connected env w q pool hq hpool]
    exact ⟨rfl, rfl⟩

theorem trackQueue_idempotent_witness :
    "mailers" ∈ mailWorld.client.knownQueues ∧
    (trackQueue okEnv mailWorld "mailers").world.issued = [⟨"SADD", ["queues", "mailers"]⟩] ∧
    (trackQueue okEnv mailWorld "reports").world.issued
      = [⟨"SADD", ["queues", "mailers"]⟩, ⟨"SADD", ["queues", "reports"]⟩] := by
  have h := trackQueue_idempotent okEnv mailWorld "mailers"
  have h2 := trackQueue_idempotent okEnv mailWorld "reports"
  refine ⟨by decide, ?_, ?_⟩
  · rw [(h.1 (by decide)).1]; decide
  · rw [(h2.2.2.2.2.2 (by decide) (by decide)).1]; decide

/-! ## The discovery set -/

theorem nsKey_congr (c c1 : ClientConfig) (key : String)
    (h : c1.RedisNamespace = c.RedisNamespace) : nsKey c1 key = nsKey c key := by
  unfold nsKey; rw [h]

theorem mem_discoverySet_append (key q : String) (a b : List Command) :
    q ∈ discoverySet key (a ++ b) ↔ q ∈ discoverySet key a ∨ q ∈ discoverySet key b := by
  induction a with
  | nil => simp [discoverySet]
  | cons cmd cmds ih =>
    show q ∈ saddMembers key cmd ++ discoverySet key (cmds ++ b) ↔
      q ∈ saddMembers key cmd ++ discoverySet key cmds ∨ q ∈ discoverySet key b
    rw [List.mem_append, List.mem_append, ih, or_assoc]

theorem discoverySet_sadd (key : String) (members : List String) :
    discoverySet key [⟨"SADD", key :: members⟩] = members := by
  simp [discoverySet, saddMembers]

theorem trackQueue_extends (env : Env) (w : World) (q : String)
    (hconn : w.client.redisPool ≠ none) : Extends w (trackQueue env w q).world := by
  obtain ⟨pool, hpool⟩ := Option.ne_none_iff_exists'.mp hconn
  by_cases h : q ∈ w.client.knownQueues
  · rw [trackQueue_known env w q h]
    exact ⟨hconn, rfl, [], (List.append_nil _).symm, fun x hx => Or.inl hx⟩
  · rw [trackQueue_new_connected env w q pool h hpool]
    refine ⟨hconn, rfl, _, rfl, ?_⟩
    intro x hx
    rcases (AList.mem_insert _).mp hx with rfl | hx
    · right
      rw [discoverySet_sadd]
      exact List.mem_singleton.mpr rfl
    · exact Or.inl hx

theorem queueJob_extends (env : Env) (w : World) (name : String) (config : JobConfig)
    (args : Option (List Value)) (hconn : w.client.redisPool ≠ none) :
    Extends w (queueJob env w name config args).world := by
  have hc := queueJob_client env w name config args
  refine ⟨by rw [hc]; exact hconn, by rw [hc], ?_⟩
  rcases queueJob_issued env w name config args with h | ⟨payload, -, h⟩
  · exact ⟨[], by rw [h, List.append_nil], fun x hx => Or.inl (by rwa [hc] at hx)⟩
  · exact ⟨_, h, fun x hx => Or.inl (by rwa [hc] at hx)⟩

theorem Extends.trans {w w1 w2 : World} (h1 : Extends w w1) (h2 : Extends w1 w2) :
    Extends w w2 := by
  obtain ⟨-, n1, new1, i1, k1⟩ := h1
  obtain ⟨p2, n2, new2, i2, k2⟩ := h2
  refine ⟨p2, n2.trans n1, new1 ++ new2, by rw [i2, i1, List.append_assoc], ?_⟩
  intro x hx
  rcases k2 x hx with hx1 | hx2
  · rcases k1 x hx1 with hx0 | hx0
    · exact Or.inl hx0
    · exact Or.inr ((mem_discoverySet_append _ _ _ _).mpr (Or.inl hx0))
  · rw [nsKey_congr w.client w1.client "queues" n1] at hx2
    exact Or.inr ((mem_discoverySet_append _ _ _ _).mpr (Or.inr hx2))

theorem step_extends (env : Env) (w : World) (op : Op) (hconn : w.client.redisPool ≠ none) :
    Extends w (step env w op) := by
  cases op with
  | register name worker queue retries =>
    exact trackQueue_extends env
      { w with client := { w.client with
          jobMapping := w.client.jobMapping.insert (env.workerType worker)
            ⟨queue, retries, name⟩ } }
      queue hconn
  | queueJob worker args =>
    show Extends w (QueueJob env w worker args).world
    unfold QueueJob
    cases w.client.jobMapping.lookup (env.workerType worker) with
    | none => exact ⟨hconn, rfl, [], (List.append_nil _).symm, fun x hx => Or.inl hx⟩
    | some config => exact queueJob_extends env w config.name config args hconn
  | queueJobWithConfig name config args =>
    show Extends w (QueueJobWithConfig env w name config args).world
    have ht := trackQueue_extends env w config.Queue hconn
    obtain ⟨w1, h1, -⟩ := trackQueue_returns env w config.Queue
    unfold QueueJobWithConfig
    rw [h1] at ht ⊢
    exact ht.trans (queueJob_extends env w1 name config args ht.1)
  | connect =>
    show Extends w (Connect env w).world
    rw [Connect_eq]
    refine ⟨Option.some_ne_none _, rfl, _, rfl, ?_⟩
    intro x hx
    right
    rw [discoverySet_sadd]
    exact (env.rangeKeys _).property.mem_iff.mpr (AList.mem_keys.mp hx)

theorem run_extends (env : Env) (ops : List Op) (w : World)
    (hconn : w.client.redisPool ≠ none) : Extends w (run env w ops) := by
  induction ops generalizing w with
  | nil => exact ⟨hconn, rfl, [], (List.append_nil _).symm, fun x hx => Or.inl hx⟩
  | cons op ops ih =>
    have h1 := step_extends env w op hconn
    exact h1.trans (ih (step env w op) h1.1)

/-- C6. `Connect` issues a single `SADD` on `nsKey("queues")` whose members are
the queues known at that moment, each once. In every world reached afterwards
by `Register`, `QueueJob`, `QueueJobWithConfig` and `Connect` calls, every known
queue is a member of some `SADD` issued on that key, the namespace is the one
`Connect` ran under, and a queue not yet known is published, when tracked, by
one `SADD` of its own. -/
theorem Connect_publishes_known (env : Env) (w : World) (ops : List Op) (q : String) :
    (∃ members,
      issuedSince w (Connect env w).world = [⟨"SADD", nsKey w.client "queues" :: members⟩] ∧
      members.Nodup ∧ ∀ x, x ∈ members ↔ x ∈ w.client.knownQueues) ∧
    (∀ x ∈ (run env (Connect env w).world ops).client.knownQueues,
      x ∈ discoverySet (nsKey w.client "queues") (run env (Connect env w).world ops).issued) ∧
    (run env (Connect env w).world ops).client.RedisNamespace = w.client.RedisNamespace ∧
    (q ∉ (run env (Connect env w).world ops).client.knownQueues →
      issuedSince (run env (Connect env w).world ops)
          (trackQueue env (run env (Connect env w).world ops) q).world
        = [⟨"SADD", [nsKey w.client "queues", q]⟩]) := by
  have hperm := (env.rangeKeys w.client.knownQueues.keys).property
  have hc : Extends w (Connect env w).world := by
    rw [Connect_eq]
    refine ⟨Option.some_ne_none _, rfl, _, rfl, ?_⟩
    intro x hx
    right
    rw [discoverySet_sadd]
    exact hperm.mem_iff.mpr (AList.mem_keys.mp hx)
  have hr := run_extends env ops (Connect env w).world hc.1
  have hall := hc.trans hr
  refine ⟨⟨_, Connect_issuedSince env w, ?_, ?_⟩, ?_, hall.2.1, ?_⟩
  · exact hperm.nodup_iff.mpr (AList.keys_nodup _)
  · intro x
    rw [hperm.mem_iff]
    exact AList.mem_keys.symm
  · intro x hx
    obtain ⟨-, -, new, hiss, hk⟩ := hr
    have hx1 := hk x hx
    rw [nsKey_congr _ _ _ hc.2.1] at hx1
    rw [hiss]
    refine (mem_discoverySet_append _ _ _ _).mpr ?_
    rcases hx1 with hx1 | hx1
    · left
      rw [Connect_eq] at hx1 ⊢
      refine (mem_discoverySet_append _ _ _ _).mpr (Or.inr ?_)
      rw [discoverySet_sadd]
      exact hperm.mem_iff.mpr (AList.mem_keys.mp hx1)
    · exact Or.inr hx1
  · intro hq
    obtain ⟨pool, hpool⟩ := Option.ne_none_iff_exists'.mp hall.1
    rw [trackQueue_new_connected env _ q pool hq hpool]
    rw [issuedSince_append _ _ _ rfl, nsKey_congr _ _ _ hall.2.1]

theorem Connect_publishes_known_witness :
    "reports" ∉ mailWorld.client.knownQueues ∧
    issuedSince mailWorld (trackQueue okEnv mailWorld "reports").world
      = [⟨"SADD", ["queues", "reports"]⟩] :=
  ⟨by decide,
    (Connect_publishes_known okEnv
      (run okEnv (World.init "127.0.0.1:6379") [.register "EmailSender" emailSender "mailers" 3])
      [] "reports").2.2.2 (by decide)⟩

/-! ## The type of a published record -/

/-- C9, the counterexample. Nothing checks the name: `QueueJobWithConfig`
called with the empty name, and `QueueJob` on a worker registered under the
empty name, each publish a record whose `Type` is empty. -/
theorem published_empty_type_counterexample :
    jsonMarshal ⟨"", some [], 3, "1fa003ff5c009eb7"⟩
      = .ok "\x7b\"Type\":\"\",\"Args\":[],\"Retry\":3,\"ID\":\"1fa003ff5c009eb7\"\x7d" ∧
    (QueueJobWithConfig okEnv mailWorld "" ⟨"mailers", 3, ""⟩ none).world.issued
      = [⟨"SADD", ["queues", "mailers"]⟩, ⟨"RPUSH", ["queue:mailers",
        "\x7b\"Type\":\"\",\"Args\":[],\"Retry\":3,\"ID\":\"1fa003ff5c009eb7\"\x7d"]⟩] ∧
    (QueueJob okEnv
        (run okEnv (World.init "127.0.0.1:6379") [.register "" emailSender "mailers" 3, .connect])
        emailSender none).world.issued
      = [⟨"SADD", ["queues", "mailers"]⟩, ⟨"RPUSH", ["queue:mailers",
        "\x7b\"Type\":\"\",\"Args\":[],\"Retry\":3,\"ID\":\"1fa003ff5c009eb7\"\x7d"]⟩] := by
  refine ⟨rfl, by decide, by decide⟩

/-- C9, amended. Every record `QueueJob` publishes has as `Type` the name its
worker's type is registered under, and every record `QueueJobWithConfig`
publishes has as `Type` the name argument; the `Type` is non-empty exactly when
that name is. -/
theorem published_type_is_name (env : Env) (w : World) (worker : Worker) (name : String)
    (config : JobConfig) (args : Option (List Value)) :
    (∀ cmd ∈ issuedSince w (QueueJob env w worker args).world,
      ∃ cfg job payload,
        w.client.jobMapping.lookup (env.workerType worker) = some cfg ∧
        env.marshal job = .ok payload ∧
        cmd = ⟨"RPUSH", [nsKey w.client ("queue:" ++ cfg.Queue), payload]⟩ ∧
        job.Type_ = cfg.name ∧ (job.Type_ ≠ "" ↔ cfg.name ≠ "")) ∧
    (∀ cmd ∈ issuedSince w (QueueJobWithConfig env w name config args).world,
      cmd.name = "RPUSH" →
      ∃ job payload,
        env.marshal job = .ok payload ∧
        cmd = ⟨"RPUSH", [nsKey w.client ("queue:" ++ config.Queue), payload]⟩ ∧
        job.Type_ = name ∧ (job.Type_ ≠ "" ↔ name ≠ "")) := by
  constructor
  · intro cmd hcmd
    cases hl : w.client.jobMapping.lookup (env.workerType worker) with
    | none =>
      have hq : QueueJob env w worker args = .panicked w (.unregisteredWorker worker) := by
        unfold QueueJob; rw [hl]
      rw [hq, Outcome.world_panicked, issuedSince_self w w rfl] at hcmd
      cases hcmd
    | some cfg =>
      have hq : QueueJob env w worker args = queueJob env w cfg.name cfg args := by
        unfold QueueJob; rw [hl]
      rw [hq] at hcmd
      rcases queueJob_issuedSince env w cfg.name cfg args with h | ⟨payload, hm, h⟩
      · rw [h] at hcmd; cases hcmd
      · rw [h, List.mem_singleton] at hcmd
        exact ⟨cfg, _, payload, rfl, hm, hcmd, rfl, Iff.rfl⟩
  · intro cmd hcmd hname
    obtain ⟨w1, h1, -, -, hn, hr⟩ := trackQueue_returns env w config.Queue
    have ht := trackQueue_issued env w config.Queue
    have hq : QueueJobWithConfig env w name config args = queueJob env w1 name config args := by
      unfold QueueJobWithConfig; rw [h1]
    rw [h1, Outcome.world_returned] at ht
    rw [hq] at hcmd
    have hjob : ∀ payload, env.marshal (mkJob env w1 name config args) = .ok payload →
        ∃ job payload1, env.marshal job = .ok payload1 ∧
          (⟨"RPUSH", [nsKey w1.client ("queue:" ++ config.Queue), payload]⟩ : Command)
            = ⟨"RPUSH", [nsKey w.client ("queue:" ++ config.Queue), payload1]⟩ ∧
          job.Type_ = name ∧ (job.Type_ ≠ "" ↔ name ≠ "") := by
      intro payload hm
      exact ⟨_, payload, hm, by rw [nsKey_congr _ _ _ hn], rfl, Iff.rfl⟩
    rcases queueJob_issued env w1 name config args with hj | ⟨payload, hm, hj⟩
    · rcases ht with ht | ht
      · rw [issuedSince_self w _ (hj.trans ht)] at hcmd; cases hcmd
      · rw [issuedSince_append w _ _ (hj.trans ht), List.mem_singleton] at hcmd
        subst hcmd
        exact absurd hname (show ("SADD" : String) ≠ "RPUSH" by decide)
    · rcases ht with ht | ht
      · rw [ht] at hj
        rw [issuedSince_append w _ _ hj, List.mem_singleton] at hcmd
        subst hcmd
        exact hjob payload hm
      · rw [ht, List.append_assoc] at hj
        rw [issuedSince_append w _ _ hj] at hcmd
        simp only [List.singleton_append, List.mem_cons, List.mem_singleton, List.not_mem_nil,
          or_false] at hcmd
        rcases hcmd with rfl | rfl
        · exact absurd hname (show ("SADD" : String) ≠ "RPUSH" by decide)
        · exact hjob payload hm

theorem published_type_is_name_witness :
    ∃ cfg job payload,
      mailWorld.client.jobMapping.lookup (okEnv.workerType emailSender) = some cfg ∧
      okEnv.marshal job = .ok payload ∧
      (⟨"RPUSH", ["queue:mailers",
          "\x7b\"Type\":\"EmailSender\",\"Args\":[],\"Retry\":3,\"ID\":\"1fa003ff5c009eb7\"\x7d"]⟩
        : Command) = ⟨"RPUSH", [nsKey mailWorld.client ("queue:" ++ cfg.Queue), payload]⟩ ∧
      job.Type_ = cfg.name ∧ (job.Type_ ≠ "" ↔ cfg.name ≠ "") :=
  (published_type_is_name okEnv mailWorld emailSender "n" ⟨"q", 0, ""⟩ none).1
    ⟨"RPUSH", ["queue:mailers",
      "\x7b\"Type\":\"EmailSender\",\"Args\":[],\"Retry\":3,\"ID\":\"1fa003ff5c009eb7\"\x7d"]⟩
    (by decide)

end Gokiq
